import Mathlib

set_option maxHeartbeats 1000000

/-!
Shallow embedding of the turn-based relay server (server.py): JSON-like
values, the association-list dictionaries Python uses, the lobby registry
and its operations, the per-connection handler state machine, the run loop,
and the newline-framed stream reader.
-/

/-- JSON-like values exchanged by the server. The server only ever builds and
inspects flat values (strings for actions and names, arbitrary opaque payload
fields); Python `None` is represented at rest either as `JVal.null` inside a
dictionary or as `Option.none` for an unset attribute. -/
inductive JVal where
  | str (s : String)
  | num (n : Int)
  | bool (b : Bool)
  | null
  deriving DecidableEq

/-- A decoded JSON object, in insertion order, as Python dicts preserve it. -/
abbrev JDict := List (String × JVal)

/-- Python dictionary lookup (`d[k]` / `k in d`): first entry with the key. -/
def dlookup [DecidableEq α] (d : List (α × β)) (k : α) : Option β :=
  match d with
  | [] => none
  | p :: rest => if p.1 = k then some p.2 else dlookup rest k

/-- Python dictionary assignment `d[k] = v`: replaces the value of the entry
holding the key (keeping its position), otherwise appends the new entry. Every
dictionary the server builds has unique keys (json.loads deduplicates and dict
mutation preserves uniqueness), so replacing the first occurrence is exact. -/
def dictSet [DecidableEq α] : List (α × β) → α → β → List (α × β)
  | [], k, v => [(k, v)]
  | q :: rest, k, v => if q.1 = k then (k, v) :: rest else q :: dictSet rest k v

/-- Python dictionary deletion `del d[k]`. -/
def dictDel [DecidableEq α] (d : List (α × β)) (k : α) : List (α × β) :=
  d.filter (fun p => decide (p.1 ≠ k))

/-- Python `str()` of the values the server can interpolate or stringify. -/
def pyStr (v : JVal) : String :=
  match v with
  | JVal.str s => s
  | JVal.num n => toString n
  | JVal.bool b => if b then "True" else "False"
  | JVal.null => "None"

/-- Python `str()` of a possibly-unset attribute. -/
def pyStrO (v : Option JVal) : String :=
  match v with
  | none => "None"
  | some v => pyStr v

/-- Storing a JSON value into a Python attribute: JSON `null` becomes `None`. -/
def jToPy (v : JVal) : Option JVal :=
  match v with
  | JVal.null => none
  | v => some v

/-- Reading a Python attribute back into a JSON value. -/
def pyToJ (v : Option JVal) : JVal :=
  match v with
  | none => JVal.null
  | some v => v

/-- A lobby (server.py, class Lobby): code, creator's version, and the member
map from participant name to an active connection id or a tombstone (`none`,
Python `None`). `max_players` is set to 2 at construction. -/
structure Lobby where
  code : String
  version : Option JVal
  clients : List (JVal × Option Nat)
  max_players : Nat
  deriving DecidableEq

/-- The process-wide registry `Lobby.lobbies`: code-keyed dictionary. -/
abbrev Registry := List (String × Lobby)

/-- Uncaught Python exceptions (and nontermination of generate_code) that
abort a handler: these propagate out of `ClientThread.run`. -/
inductive Fault where
  | keyError
  | attrError
  | decodeError
  | hang
  deriving DecidableEq

/-- Observable effects of the server: a framed JSON message written to the
connection identified by `cid`, an invocation of the registry disconnect
operation, and the closing of the handler's own socket. -/
inductive Event where
  | send (cid : Nat) (d : JDict)
  | disconnectCall (code : String) (name : JVal)
  | close
  deriving DecidableEq

/-- The loop body of Lobby.message: iterate the member map in order, skip the
excluded connections, and write to each remaining entry. A tombstoned entry is
Python `None`, and `None.send_json` raises AttributeError, aborting the loop
after the earlier sends have gone out. -/
def messageLoop (clients : List (JVal × Option Nat)) (d : JDict) (exclude : List Nat) :
    List Event × Option Fault :=
  match clients with
  | [] => ([], none)
  | (_, some cid) :: rest =>
    if cid ∈ exclude then messageLoop rest d exclude
    else
      let r := messageLoop rest d exclude
      (Event.send cid d :: r.1, r.2)
  | (_, none) :: _ => ([], some Fault.attrError)

/-- Lobby.message (server.py lines 29-35). -/
def Lobby.message (l : Lobby) (d : JDict) (exclude : List Nat) : List Event × Option Fault :=
  messageLoop l.clients d exclude

def connectFrame (name : JVal) : JDict :=
  [("action", JVal.str "connect"), ("name", name)]

/-- Lobby.connect (server.py lines 48-50): register the member under its name
and broadcast the connect notification to every member (no exclusion). -/
def Lobby.connect (l : Lobby) (name : JVal) (cid : Nat) : Lobby × List Event × Option Fault :=
  let l' : Lobby := { l with clients := dictSet l.clients name (some cid) }
  let r := l'.message (connectFrame name) []
  (l', r.1, r.2)

def disconnectFrame (name : JVal) : JDict :=
  [("action", JVal.str "disconnect"), ("name", name)]

/-- The notification loop of Lobby.disconnect: unlike Lobby.message it
explicitly skips tombstoned (`None`) entries. -/
def notifyActive (clients : List (JVal × Option Nat)) (d : JDict) : List Event :=
  clients.filterMap (fun p => p.2.map (fun cid => Event.send cid d))

/-- Lobby.disconnect (server.py lines 37-46), taken together with the registry
it mutates: tombstone the named entry, delete the lobby from the registry when
every entry is tombstoned, then notify the remaining active members. The
handler only ever invokes it on the lobby object its connection holds, whose
code is registered; the `none` branch records the KeyError `del` would raise
were the code absent. -/
def registryDisconnect (R : Registry) (code : String) (name : JVal) :
    Registry × List Event × Option Fault :=
  match dlookup R code with
  | none => (R, [], some Fault.keyError)
  | some l =>
    let clients' := dictSet l.clients name none
    let R' := if clients'.all (fun p => p.2.isNone) then dictDel R code
              else dictSet R code { l with clients := clients' }
    (R', Event.disconnectCall code name :: notifyActive clients' (disconnectFrame name), none)

/-- The alphabet the code generator draws from (server.py line 55). -/
def codeAlphabet : List Char := "ABCDEFGHIJKLMNOPQRSTUVWXYZ".data

/-- One call of random.choice over the 26-letter alphabet. -/
def alphaChar (i : Fin 26) : Char := codeAlphabet.getD i.val 'A'

/-- The four random choices that build one candidate code. -/
abbrev Code4 := Fin 26 × Fin 26 × Fin 26 × Fin 26

/-- The candidate string assembled from four random choices. -/
def codeOf (p : Code4) : String :=
  String.mk [alphaChar p.1, alphaChar p.2.1, alphaChar p.2.2.1, alphaChar p.2.2.2]

/-- Lobby.generate_code (server.py lines 52-57): keep drawing candidates until
one is absent from the registry. The infinite random stream is modelled by the
list of draws the loop consumes; an exhausted list means the loop has not yet
returned. -/
def Lobby.generate_code (R : Registry) : List Code4 → Option String
  | [] => none
  | p :: rest =>
    if dlookup R (codeOf p) = none then some (codeOf p)
    else Lobby.generate_code R rest

def codeFrame (code : String) : JDict :=
  [("action", JVal.str "code"), ("code", JVal.str code)]

/-- Lobby.create (server.py lines 59-66): generate a fresh code, register the
new lobby, connect the creator, and broadcast the code frame. A `none` first
component models generate_code never returning (the registry is then never
touched, reported as `Fault.hang`). -/
def Lobby.create (R : Registry) (cid : Nat) (name : JVal) (version : Option JVal)
    (cands : List Code4) : Option String × Registry × List Event × Option Fault :=
  match Lobby.generate_code R cands with
  | none => (none, R, [], some Fault.hang)
  | some code =>
    let l0 : Lobby := { code := code, version := version, clients := [], max_players := 2 }
    let c1 := l0.connect name cid
    match c1.2.2 with
    | some f => (some code, dictSet R code c1.1, c1.2.1, some f)
    | none =>
      let m := c1.1.message (codeFrame code) []
      (some code, dictSet R code c1.1, c1.2.1 ++ m.1, m.2)

/-- The four exceptions Lobby.join raises. -/
inductive JoinErr where
  | doesntExist
  | mismatched (v : Option JVal)
  | alreadyConnected
  | full
  deriving DecidableEq

/-- Outcome of Lobby.join: a raised lobby exception, or success carrying the
joined code, the updated registry, the emitted notifications, and any fault
the connect broadcast raised after the membership write. -/
inductive JoinRes where
  | err (e : JoinErr)
  | ok (code : String) (reg : Registry) (events : List Event) (fault : Option Fault)
  deriving DecidableEq

/-- Lobby.join (server.py lines 68-80). The checks run in source order:
existence, version, already-connected (name present with a live value), full
(name absent and the member map at or past max_players), then connect. A
non-string code value is never a registry key, so it fails the existence
check exactly as in Python. -/
def Lobby.join (R : Registry) (cid : Nat) (name : JVal) (version : Option JVal)
    (code : JVal) : JoinRes :=
  match code with
  | JVal.str s =>
    match dlookup R s with
    | none => JoinRes.err JoinErr.doesntExist
    | some l =>
      if l.version ≠ version then JoinRes.err (JoinErr.mismatched l.version)
      else
        match dlookup l.clients name with
        | some (some _) => JoinRes.err JoinErr.alreadyConnected
        | some none =>
          let c := l.connect name cid
          JoinRes.ok s (dictSet R s c.1) c.2.1 c.2.2
        | none =>
          if l.max_players ≤ l.clients.length then JoinRes.err JoinErr.full
          else
            let c := l.connect name cid
            JoinRes.ok s (dictSet R s c.1) c.2.1 c.2.2
  | _ => JoinRes.err JoinErr.doesntExist

/-- Per-connection handler state (ClientThread attributes, server.py 100-110).
`cid` is the thread's identity; `lobby` holds the code of the lobby object the
thread references. -/
structure ClientThread where
  cid : Nat
  name : Option JVal
  game_version : Option JVal
  lobby : Option String
  deriving DecidableEq

/-- Result of one handler step: updated connection and registry, the events
emitted in order, and the uncaught exception if one escaped. -/
structure HRes where
  conn : ClientThread
  reg : Registry
  events : List Event
  fault : Option Fault
  deriving DecidableEq

def errFrame (t : String) : JDict :=
  [("action", JVal.str "error"), ("type", JVal.str t)]

/-- ClientThread.action_identify (server.py lines 135-138): `d` is indexed for
"name" first and "game_version" second, so a missing key raises KeyError at
that point, after any earlier assignment has landed. -/
def ClientThread.action_identify (c : ClientThread) (R : Registry) (d : JDict) : HRes :=
  match dlookup d "name" with
  | none => ⟨c, R, [], some Fault.keyError⟩
  | some nv =>
    let c1 := { c with name := jToPy nv }
    match dlookup d "game_version" with
    | none => ⟨c1, R, [], some Fault.keyError⟩
    | some gv =>
      let c2 := { c1 with game_version := jToPy gv }
      ⟨c2, R, [Event.send c.cid [("action", JVal.str "message"),
        ("message", JVal.str ("Hi " ++ pyStrO c2.name ++ " using " ++ pyStrO c2.game_version))]],
        none⟩

/-- ClientThread.action_create (server.py lines 140-144). The lobby attribute
is assigned only when Lobby.create returns normally. -/
def ClientThread.action_create (c : ClientThread) (R : Registry) (cands : List Code4) : HRes :=
  match c.name with
  | none => ⟨c, R, [Event.send c.cid (errFrame "unidentified")], none⟩
  | some nm =>
    let r := Lobby.create R c.cid nm c.game_version cands
    match r.1, r.2.2.2 with
    | some code, none => ⟨{ c with lobby := some code }, r.2.1, r.2.2.1, none⟩
    | some _, some f => ⟨c, r.2.1, r.2.2.1, some f⟩
    | none, f => ⟨c, r.2.1, r.2.2.1, f⟩

def mismatchFrame (v : Option JVal) : JDict :=
  [("action", JVal.str "error"), ("type", JVal.str "mismatched_version"),
   ("message", JVal.str (pyStrO v))]

/-- ClientThread.action_join (server.py lines 146-159): each lobby exception
maps to exactly one error frame to the requester; `d["code"]` raises KeyError
when the key is missing; the lobby attribute is assigned only when Lobby.join
returns normally. -/
def ClientThread.action_join (c : ClientThread) (R : Registry) (d : JDict) : HRes :=
  match c.name with
  | none => ⟨c, R, [Event.send c.cid (errFrame "unidentified")], none⟩
  | some nm =>
    match dlookup d "code" with
    | none => ⟨c, R, [], some Fault.keyError⟩
    | some codeV =>
      match Lobby.join R c.cid nm c.game_version codeV with
      | JoinRes.err JoinErr.doesntExist =>
        ⟨c, R, [Event.send c.cid (errFrame "lobby_doesnt_exist")], none⟩
      | JoinRes.err (JoinErr.mismatched v) =>
        ⟨c, R, [Event.send c.cid (mismatchFrame v)], none⟩
      | JoinRes.err JoinErr.alreadyConnected =>
        ⟨c, R, [Event.send c.cid (errFrame "already_connected")], none⟩
      | JoinRes.err JoinErr.full =>
        ⟨c, R, [Event.send c.cid (errFrame "lobby_full")], none⟩
      | JoinRes.ok code R' evs f =>
        match f with
        | none => ⟨{ c with lobby := some code }, R', evs, none⟩
        | some f => ⟨c, R', evs, some f⟩

/-- ClientThread.action_turn (server.py lines 161-167): relay the message,
augmented with the sender's name, to the lobby excluding the sender. The
registry lookup stands for dereferencing the held lobby object; the handler
only holds codes of registered lobbies. -/
def ClientThread.action_turn (c : ClientThread) (R : Registry) (d : JDict) : HRes :=
  match c.name with
  | none => ⟨c, R, [Event.send c.cid (errFrame "unidentified")], none⟩
  | some _ =>
    match c.lobby with
    | none => ⟨c, R, [Event.send c.cid (errFrame "not_in_lobby")], none⟩
    | some code =>
      match dlookup R code with
      | none => ⟨c, R, [], some Fault.keyError⟩
      | some l =>
        let m := l.message (dictSet d "name" (pyToJ c.name)) [c.cid]
        ⟨c, R, m.1, m.2⟩

/-- ClientThread.handle_message (server.py lines 118-133): dispatch on the
"action" field; a missing field or an unrecognized (or non-string) value
yields the unknown_action error frame. -/
def ClientThread.handle_message (c : ClientThread) (R : Registry) (d : JDict)
    (cands : List Code4) : HRes :=
  match dlookup d "action" with
  | none => ⟨c, R, [Event.send c.cid (errFrame "unknown_action")], none⟩
  | some a =>
    if a = JVal.str "identify" then c.action_identify R d
    else if a = JVal.str "create" then c.action_create R cands
    else if a = JVal.str "join" then c.action_join R d
    else if a = JVal.str "turn" then c.action_turn R d
    else ⟨c, R, [Event.send c.cid (errFrame "unknown_action")], none⟩

/-- One framed line handed to the run loop: either a frame whose text decoded
as a JSON object (with the random draws any create in it will consume), or a
frame whose text json.loads rejects. -/
inductive Frame where
  | good (d : JDict) (cands : List Code4)
  | malformed
  deriving DecidableEq

/-- The while-loop of ClientThread.run (server.py lines 170-175): process
frames until end of stream; a decode fault or an uncaught handler exception
aborts the loop and propagates. -/
def processFrames (c : ClientThread) (R : Registry) : List Frame → HRes
  | [] => ⟨c, R, [], none⟩
  | Frame.malformed :: _ => ⟨c, R, [], some Fault.decodeError⟩
  | Frame.good d cands :: rest =>
    match ClientThread.handle_message c R d cands with
    | ⟨c1, R1, evs1, some f⟩ => ⟨c1, R1, evs1, some f⟩
    | ⟨c1, R1, evs1, none⟩ =>
      ⟨(processFrames c1 R1 rest).conn, (processFrames c1 R1 rest).reg,
       evs1 ++ (processFrames c1 R1 rest).events, (processFrames c1 R1 rest).fault⟩

/-- The disconnect logic after the loop (server.py lines 176-180): if the
connection had joined a lobby, invoke registry disconnect, then close the
socket. -/
def runCleanup (c : ClientThread) (R : Registry) : Registry × List Event × Option Fault :=
  match c.lobby with
  | none => (R, [Event.close], none)
  | some code =>
    match registryDisconnect R code (pyToJ c.name) with
    | (R2, evs2, some f) => (R2, evs2, some f)
    | (R2, evs2, none) => (R2, evs2 ++ [Event.close], none)

/-- ClientThread.run (server.py lines 169-180): the loop, then — only when the
loop ended by end-of-stream — the disconnect logic and the socket close. An
exception escaping the loop skips both. -/
def ClientThread.run (c : ClientThread) (R : Registry) (frames : List Frame) : HRes :=
  match processFrames c R frames with
  | ⟨c1, R1, evs1, some f⟩ => ⟨c1, R1, evs1, some f⟩
  | ⟨c1, R1, evs1, none⟩ =>
    match runCleanup c1 R1 with
    | (R2, evs2, f2) => ⟨c1, R2, evs1 ++ evs2, f2⟩

/-- The three registry-mutating operations, with arbitrary arguments: every
registry mutation performed by any connection handler is one of these. -/
inductive ROp where
  | createOp (cid : Nat) (name : JVal) (version : Option JVal) (cands : List Code4)
  | joinOp (cid : Nat) (name : JVal) (version : Option JVal) (code : JVal)
  | discoOp (code : String) (name : JVal)

/-- The registry after one operation (failed operations leave it unchanged;
a join whose connect broadcast faulted keeps its membership write, exactly as
the mutated Python object does). -/
def applyROp (R : Registry) : ROp → Registry
  | ROp.createOp cid name v cands => (Lobby.create R cid name v cands).2.1
  | ROp.joinOp cid name v code =>
    match Lobby.join R cid name v code with
    | JoinRes.err _ => R
    | JoinRes.ok _ R' _ _ => R'
  | ROp.discoOp code name => (registryDisconnect R code name).1

/-- Registry states reachable from the empty registry by the operations. -/
inductive Reachable : Registry → Prop where
  | base : Reachable []
  | step {R : Registry} (op : ROp) : Reachable R → Reachable (applyROp R op)

/-- One result of socket.recv in the NewlineReceiver loop: a chunk of bytes
(the empty chunk is Python's b'' meaning the peer closed), or a
ConnectionResetError. An exhausted event list likewise models the closed
stream. -/
inductive RecvEv where
  | chunk (bs : List Nat)
  | reset
  deriving DecidableEq

/-- What one NewlineReceiver call produces: a decoded message, the
end-of-stream signal (Python None), or the UnicodeDecodeError a non-UTF-8
record raises. -/
inductive RecvRes where
  | eos
  | msg (s : String)
  | decodeFault
  deriving DecidableEq

/-- Whether a byte is a UTF-8 continuation byte. -/
def contByte (b : Nat) : Bool := decide (128 ≤ b ∧ b ≤ 191)

/-- Strict UTF-8 decoding of a byte list, as bytes.decode('utf-8') performs
it: rejects stray continuation bytes, overlong forms, surrogates, and code
points beyond U+10FFFF. -/
def utf8Decode : List Nat → Option (List Char)
  | [] => some []
  | b :: rest =>
    if b ≤ 0x7F then
      (utf8Decode rest).map (fun cs => Char.ofNat b :: cs)
    else if b < 0xC2 then none
    else if b ≤ 0xDF then
      match rest with
      | c1 :: rest1 =>
        if contByte c1 then
          (utf8Decode rest1).map (fun cs => Char.ofNat ((b - 0xC0) * 64 + (c1 - 0x80)) :: cs)
        else none
      | [] => none
    else if b ≤ 0xEF then
      match rest with
      | c1 :: c2 :: rest2 =>
        if (if b = 0xE0 then decide (0xA0 ≤ c1 ∧ c1 ≤ 0xBF)
            else if b = 0xED then decide (0x80 ≤ c1 ∧ c1 ≤ 0x9F)
            else contByte c1) && contByte c2 then
          (utf8Decode rest2).map (fun cs =>
            Char.ofNat ((b - 0xE0) * 4096 + (c1 - 0x80) * 64 + (c2 - 0x80)) :: cs)
        else none
      | _ => none
    else if b ≤ 0xF4 then
      match rest with
      | c1 :: c2 :: c3 :: rest3 =>
        if (if b = 0xF0 then decide (0x90 ≤ c1 ∧ c1 ≤ 0xBF)
            else if b = 0xF4 then decide (0x80 ≤ c1 ∧ c1 ≤ 0x8F)
            else contByte c1) && contByte c2 && contByte c3 then
          (utf8Decode rest3).map (fun cs =>
            Char.ofNat ((b - 0xF0) * 262144 + (c1 - 0x80) * 4096 + (c2 - 0x80) * 64 + (c3 - 0x80)) :: cs)
        else none
      | _ => none
    else none

/-- The value NewlineReceiver.__call__ returns for a complete record: the
decoded text, or the UnicodeDecodeError raised by line.decode('utf-8'). -/
def decodeRes (line : List Nat) : RecvRes :=
  match utf8Decode line with
  | some cs => RecvRes.msg (String.mk cs)
  | none => RecvRes.decodeFault

/-- NewlineReceiver.__call__ (server.py lines 87-98): keep reading while the
accumulator holds no newline; a reset or a closed stream returns the
end-of-stream signal; otherwise partition the accumulator at the first
newline, retain the remainder, and decode the record. Returns the result,
the accumulator left for the next call, and the unconsumed stream. -/
def recvCall : List RecvEv → List Nat → RecvRes × List Nat × List RecvEv
  | stream, buffer =>
    if 10 ∈ buffer then
      (decodeRes (buffer.takeWhile (fun b => b != 10)),
       (buffer.dropWhile (fun b => b != 10)).tail, stream)
    else
      match stream with
      | [] => (RecvRes.eos, buffer, [])
      | RecvEv.reset :: s => (RecvRes.eos, buffer, s)
      | RecvEv.chunk [] :: s => (RecvRes.eos, buffer, s)
      | RecvEv.chunk bs :: s => recvCall s (buffer ++ bs)

/-- The bytes delivered by a list of recv events. -/
def chunksBytes : List RecvEv → List Nat
  | [] => []
  | RecvEv.chunk bs :: r => bs ++ chunksBytes r
  | RecvEv.reset :: r => chunksBytes r

/-! Association-list dictionary lemmas. -/

theorem dlookup_nil [DecidableEq α] (k : α) : dlookup ([] : List (α × β)) k = none := rfl

theorem dlookup_cons [DecidableEq α] (q : α × β) (d : List (α × β)) (k : α) :
    dlookup (q :: d) k = if q.1 = k then some q.2 else dlookup d k := rfl

theorem ne_of_dlookup_eq_none [DecidableEq α] {d : List (α × β)} {k : α}
    (h : dlookup d k = none) : ∀ p ∈ d, p.1 ≠ k := by
  induction d with
  | nil => intro p hp; cases hp
  | cons q rest ih =>
    intro p hp
    rw [dlookup_cons] at h
    by_cases hq : q.1 = k
    · rw [if_pos hq] at h; cases h
    · rw [if_neg hq] at h
      rcases List.mem_cons.mp hp with rfl | hm
      · exact hq
      · exact ih h p hm

theorem dlookup_eq_none_of_forall [DecidableEq α] {d : List (α × β)} {k : α}
    (h : ∀ p ∈ d, p.1 ≠ k) : dlookup d k = none := by
  induction d with
  | nil => rfl
  | cons q rest ih =>
    rw [dlookup_cons, if_neg (h q (List.mem_cons_self q rest))]
    exact ih (fun p hp => h p (List.mem_cons_of_mem q hp))

theorem dlookup_mem [DecidableEq α] {d : List (α × β)} {k : α} {v : β}
    (h : dlookup d k = some v) : (k, v) ∈ d := by
  induction d with
  | nil => cases h
  | cons q rest ih =>
    rw [dlookup_cons] at h
    by_cases hq : q.1 = k
    · rw [if_pos hq] at h
      cases h
      subst hq
      exact List.mem_cons_self q rest
    · rw [if_neg hq] at h
      exact List.mem_cons_of_mem q (ih h)

theorem mem_dictSet [DecidableEq α] {d : List (α × β)} {k : α} {v : β} {p : α × β}
    (h : p ∈ dictSet d k v) : p = (k, v) ∨ p ∈ d := by
  induction d with
  | nil =>
    rcases List.mem_singleton.mp h with rfl
    exact Or.inl rfl
  | cons q rest ih =>
    unfold dictSet at h
    split_ifs at h with hq
    · rcases List.mem_cons.mp h with rfl | hm
      · exact Or.inl rfl
      · exact Or.inr (List.mem_cons_of_mem q hm)
    · rcases List.mem_cons.mp h with rfl | hm
      · exact Or.inr (List.mem_cons_self _ _)
      · rcases ih hm with h' | h'
        · exact Or.inl h'
        · exact Or.inr (List.mem_cons_of_mem q h')

theorem mem_dictSet_self [DecidableEq α] (d : List (α × β)) (k : α) (v : β) :
    (k, v) ∈ dictSet d k v := by
  induction d with
  | nil => exact List.mem_singleton.mpr rfl
  | cons q rest ih =>
    unfold dictSet
    split_ifs with hq
    · exact List.mem_cons_self _ _
    · exact List.mem_cons_of_mem q ih

theorem dlookup_dictSet_self [DecidableEq α] (d : List (α × β)) (k : α) (v : β) :
    dlookup (dictSet d k v) k = some v := by
  induction d with
  | nil => simp [dictSet, dlookup]
  | cons q rest ih =>
    unfold dictSet
    split_ifs with hq
    · rw [dlookup_cons, if_pos rfl]
    · rw [dlookup_cons, if_neg hq]
      exact ih

theorem dlookup_dictSet_ne [DecidableEq α] (d : List (α × β)) (k k' : α) (v : β)
    (h : k' ≠ k) : dlookup (dictSet d k v) k' = dlookup d k' := by
  induction d with
  | nil =>
    rw [dlookup_nil]
    unfold dictSet
    rw [dlookup_cons, if_neg (fun hh : k = k' => h hh.symm), dlookup_nil]
  | cons q rest ih =>
    unfold dictSet
    split_ifs with hq
    · rw [dlookup_cons, dlookup_cons, if_neg (fun hh : k = k' => h hh.symm),
        if_neg (fun hh : q.1 = k' => h (hq ▸ hh).symm)]
    · rw [dlookup_cons, dlookup_cons]
      by_cases hq' : q.1 = k'
      · rw [if_pos hq', if_pos hq']
      · rw [if_neg hq', if_neg hq']
        exact ih

theorem pairwiseKeys_dictSet [DecidableEq α] {d : List (α × β)} {k : α} {v : β}
    (h : d.Pairwise (fun a b => a.1 ≠ b.1)) :
    (dictSet d k v).Pairwise (fun a b => a.1 ≠ b.1) := by
  induction d with
  | nil => exact List.pairwise_singleton _ _
  | cons q rest ih =>
    rcases List.pairwise_cons.mp h with ⟨hq, hrest⟩
    unfold dictSet
    split_ifs with hk
    · exact List.pairwise_cons.mpr ⟨fun b hb => hk ▸ hq b hb, hrest⟩
    · refine List.pairwise_cons.mpr ⟨?_, ih hrest⟩
      intro b hb
      rcases mem_dictSet hb with rfl | hm
      · exact hk
      · exact hq b hm

theorem keys_length_dictSet_of_mem [DecidableEq α] {d : List (α × β)} {k : α} (v : β)
    (h : (dlookup d k).isSome) : (dictSet d k v).length = d.length := by
  induction d with
  | nil => simp [dlookup] at h
  | cons q rest ih =>
    unfold dictSet
    split_ifs with hq
    · simp
    · rw [dlookup_cons, if_neg hq] at h
      simp [ih h]

theorem mem_dictDel [DecidableEq α] {d : List (α × β)} {k : α} {p : α × β}
    (h : p ∈ dictDel d k) : p ∈ d :=
  List.mem_of_mem_filter h

theorem pairwiseKeys_dictDel [DecidableEq α] {d : List (α × β)} {k : α}
    (h : d.Pairwise (fun a b => a.1 ≠ b.1)) :
    (dictDel d k).Pairwise (fun a b => a.1 ≠ b.1) :=
  h.sublist (List.filter_sublist d)

theorem dlookup_dictDel_self [DecidableEq α] (d : List (α × β)) (k : α) :
    dlookup (dictDel d k) k = none := by
  apply dlookup_eq_none_of_forall
  intro p hp
  have := List.of_mem_filter hp
  simpa using this

/-! Registry invariant machinery. -/

theorem generate_code_spec {R : Registry} {cands : List Code4} {code : String}
    (h : Lobby.generate_code R cands = some code) :
    code.length = 4 ∧ (∀ ch ∈ code.data, ch ∈ codeAlphabet) ∧ dlookup R code = none := by
  induction cands with
  | nil => cases h
  | cons p rest ih =>
    simp only [Lobby.generate_code] at h
    split_ifs at h with hfresh
    · cases h
      refine ⟨rfl, ?_, hfresh⟩
      have halpha : ∀ i : Fin 26, alphaChar i ∈ codeAlphabet := by decide
      intro ch hch
      have hch' : ch ∈ [alphaChar p.1, alphaChar p.2.1, alphaChar p.2.2.1, alphaChar p.2.2.2] :=
        hch
      fin_cases hch' <;> exact halpha _
    · exact ih h

/-- The registry a successful Lobby.join leaves behind: the looked-up lobby,
with the joiner written under its name, stored back at its code. -/
theorem join_ok_reg {R : Registry} {cid : Nat} {name : JVal} {version : Option JVal}
    {code : JVal} {s : String} {R' : Registry} {evs : List Event} {f : Option Fault}
    (h : Lobby.join R cid name version code = JoinRes.ok s R' evs f) :
    ∃ l, dlookup R s = some l ∧
      R' = dictSet R s { l with clients := dictSet l.clients name (some cid) } := by
  unfold Lobby.join at h
  split at h
  case h_2 => exact JoinRes.noConfusion h
  case h_1 s0 =>
    split at h
    case h_1 => exact JoinRes.noConfusion h
    case h_2 l heq =>
      split at h
      · exact JoinRes.noConfusion h
      · split at h
        case h_1 => exact JoinRes.noConfusion h
        case h_2 =>
          cases h
          exact ⟨l, heq, rfl⟩
        case h_3 =>
          split at h
          · exact JoinRes.noConfusion h
          · cases h
            exact ⟨l, heq, rfl⟩

/-- The registry Lobby.create leaves behind when generate_code diverges. -/
theorem create_reg_none {R : Registry} {cid : Nat} {name : JVal} {version : Option JVal}
    {cands : List Code4} (hg : Lobby.generate_code R cands = none) :
    (Lobby.create R cid name version cands).2.1 = R := by
  unfold Lobby.create
  rw [hg]

/-- The registry Lobby.create leaves behind on success: the new single-member
lobby registered under the generated code. -/
theorem create_reg_some {R : Registry} {cid : Nat} {name : JVal} {version : Option JVal}
    {cands : List Code4} {code : String} (hg : Lobby.generate_code R cands = some code) :
    (Lobby.create R cid name version cands).2.1 =
      dictSet R code (Lobby.mk code version [(name, some cid)] 2) := by
  unfold Lobby.create
  rw [hg]
  rfl

/-- The registry invariant: codes are pairwise distinct, every lobby is stored
under its own code, and every registered lobby has an active member. -/
def RegInv (R : Registry) : Prop :=
  R.Pairwise (fun a b => a.1 ≠ b.1) ∧
  ∀ p ∈ R, p.2.code = p.1 ∧ ∃ q ∈ p.2.clients, q.2 ≠ none

theorem inv_create {R : Registry} (cid : Nat) (name : JVal) (version : Option JVal)
    (cands : List Code4) (h : RegInv R) : RegInv (Lobby.create R cid name version cands).2.1 := by
  rcases h with ⟨hpw, hmem⟩
  cases hg : Lobby.generate_code R cands with
  | none => rw [create_reg_none hg]; exact ⟨hpw, hmem⟩
  | some code =>
    rw [create_reg_some hg]
    constructor
    · exact pairwiseKeys_dictSet hpw
    · intro p hp
      rcases mem_dictSet hp with rfl | hm
      · exact ⟨rfl, ⟨(name, some cid), List.mem_singleton.mpr rfl, by simp⟩⟩
      · exact hmem p hm

theorem inv_join {R : Registry} (cid : Nat) (name : JVal) (version : Option JVal)
    (code : JVal) (h : RegInv R) : RegInv (applyROp R (ROp.joinOp cid name version code)) := by
  rcases h with ⟨hpw, hmem⟩
  simp only [applyROp]
  cases hj : Lobby.join R cid name version code with
  | err e => exact ⟨hpw, hmem⟩
  | ok s R' evs f =>
    rcases join_ok_reg hj with ⟨l, hl, rfl⟩
    constructor
    · exact pairwiseKeys_dictSet hpw
    · intro p hp
      rcases mem_dictSet hp with rfl | hm
      · refine ⟨(hmem (s, l) (dlookup_mem hl)).1, ?_⟩
        exact ⟨(name, some cid), mem_dictSet_self _ _ _, by simp⟩
      · exact hmem p hm

theorem inv_disco {R : Registry} (code : String) (name : JVal) (h : RegInv R) :
    RegInv (registryDisconnect R code name).1 := by
  rcases h with ⟨hpw, hmem⟩
  unfold registryDisconnect
  cases hl : dlookup R code with
  | none => exact ⟨hpw, hmem⟩
  | some l =>
    simp only
    split_ifs with hall
    · constructor
      · exact pairwiseKeys_dictDel hpw
      · intro p hp
        exact hmem p (mem_dictDel hp)
    · constructor
      · exact pairwiseKeys_dictSet hpw
      · intro p hp
        rcases mem_dictSet hp with rfl | hm
        · refine ⟨(hmem (code, l) (dlookup_mem hl)).1, ?_⟩
          have hex : ∃ q ∈ dictSet l.clients name none, ¬ (q.2.isNone = true) := by
            by_contra hcon
            push_neg at hcon
            exact hall (List.all_eq_true.mpr fun q hq => hcon q hq)
          rcases hex with ⟨q, hq, hqn⟩
          refine ⟨q, hq, ?_⟩
          intro hnone
          exact hqn (by rw [hnone]; rfl)
        · exact hmem p hm

theorem reachable_inv {R : Registry} (h : Reachable R) : RegInv R := by
  induction h with
  | base => exact ⟨List.Pairwise.nil, by intro p hp; cases hp⟩
  | step op hR ih =>
    cases op with
    | createOp cid name v cands => exact inv_create cid name v cands ih
    | joinOp cid name v code => exact inv_join cid name v code ih
    | discoOp code name => exact inv_disco code name ih

/-! Handler-level characterizations. -/

theorem create_eq_none {R : Registry} {cid : Nat} {name : JVal} {version : Option JVal}
    {cands : List Code4} (hg : Lobby.generate_code R cands = none) :
    Lobby.create R cid name version cands = (none, R, [], some Fault.hang) := by
  unfold Lobby.create
  rw [hg]

theorem create_eq_some {R : Registry} {cid : Nat} {name : JVal} {version : Option JVal}
    {cands : List Code4} {code : String} (hg : Lobby.generate_code R cands = some code) :
    Lobby.create R cid name version cands =
      (some code, dictSet R code (Lobby.mk code version [(name, some cid)] 2),
       [Event.send cid (connectFrame name), Event.send cid (codeFrame code)], none) := by
  unfold Lobby.create
  rw [hg]
  rfl

theorem registryDisconnect_some {R : Registry} {code : String} {name : JVal} {l : Lobby}
    (hr : dlookup R code = some l) :
    registryDisconnect R code name =
      ((if (dictSet l.clients name none).all (fun p => p.2.isNone) then dictDel R code
        else dictSet R code { l with clients := dictSet l.clients name none }),
       Event.disconnectCall code name ::
         notifyActive (dictSet l.clients name none) (disconnectFrame name),
       none) := by
  unfold registryDisconnect
  rw [hr]

/-- Every event a messageLoop call emits is a send of the broadcast payload. -/
theorem messageLoop_sends (clients : List (JVal × Option Nat)) (d : JDict) (ex : List Nat) :
    ∀ e ∈ (messageLoop clients d ex).1, ∃ cid, e = Event.send cid d := by
  induction clients with
  | nil => intro e he; cases he
  | cons q rest ih =>
    intro e he
    match q with
    | (n, some cid) =>
      unfold messageLoop at he
      split_ifs at he with hmem
      · exact ih e he
      · rcases List.mem_cons.mp he with rfl | hm
        · exact ⟨cid, rfl⟩
        · exact ih e hm
    | (n, none) =>
      unfold messageLoop at he
      cases he

theorem notifyActive_sends (clients : List (JVal × Option Nat)) (d : JDict) :
    ∀ e ∈ notifyActive clients d, ∃ cid, e = Event.send cid d := by
  intro e he
  rcases List.mem_filterMap.mp he with ⟨p, hp, hmap⟩
  cases hv : p.2 with
  | none => rw [hv] at hmap; cases hmap
  | some cid =>
    rw [hv] at hmap
    cases hmap
    exact ⟨cid, rfl⟩

/-- The notifications a successful Lobby.join emits are connect-frame sends. -/
theorem join_ok_events {R : Registry} {cid : Nat} {name : JVal} {version : Option JVal}
    {code : JVal} {s : String} {R' : Registry} {evs : List Event} {f : Option Fault}
    (h : Lobby.join R cid name version code = JoinRes.ok s R' evs f) :
    ∀ e ∈ evs, ∃ cid2, e = Event.send cid2 (connectFrame name) := by
  unfold Lobby.join at h
  split at h
  case h_2 => exact JoinRes.noConfusion h
  case h_1 s0 =>
    split at h
    case h_1 => exact JoinRes.noConfusion h
    case h_2 l heq =>
      split at h
      · exact JoinRes.noConfusion h
      · split at h
        case h_1 => exact JoinRes.noConfusion h
        case h_2 =>
          cases h
          exact messageLoop_sends _ _ _
        case h_3 =>
          split at h
          · exact JoinRes.noConfusion h
          · cases h
            exact messageLoop_sends _ _ _

/-- Every event the per-message handler emits is a send: the handler never
invokes registry disconnect and never closes the socket. -/
theorem handle_events_send (c : ClientThread) (R : Registry) (d : JDict) (cands : List Code4) :
    ∀ e ∈ (ClientThread.handle_message c R d cands).events, ∃ cid dd, e = Event.send cid dd := by
  intro e he
  unfold ClientThread.handle_message at he
  split at he
  · rcases List.mem_singleton.mp he with rfl; exact ⟨_, _, rfl⟩
  · split_ifs at he
    · -- identify
      unfold ClientThread.action_identify at he
      split at he
      · cases he
      · split at he
        · cases he
        · rcases List.mem_singleton.mp he with rfl; exact ⟨_, _, rfl⟩
    · -- create
      unfold ClientThread.action_create at he
      split at he
      · rcases List.mem_singleton.mp he with rfl; exact ⟨_, _, rfl⟩
      · cases hg : Lobby.generate_code R cands with
        | none => rw [create_eq_none hg] at he; cases he
        | some code =>
          rw [create_eq_some hg] at he
          rcases List.mem_cons.mp he with rfl | he2
          · exact ⟨_, _, rfl⟩
          · rcases List.mem_singleton.mp he2 with rfl; exact ⟨_, _, rfl⟩
    · -- join
      unfold ClientThread.action_join at he
      split at he
      · rcases List.mem_singleton.mp he with rfl; exact ⟨_, _, rfl⟩
      · split at he
        · cases he
        · split at he
          · rcases List.mem_singleton.mp he with rfl; exact ⟨_, _, rfl⟩
          · rcases List.mem_singleton.mp he with rfl; exact ⟨_, _, rfl⟩
          · rcases List.mem_singleton.mp he with rfl; exact ⟨_, _, rfl⟩
          · rcases List.mem_singleton.mp he with rfl; exact ⟨_, _, rfl⟩
          · next s R' evs f hj =>
            split at he
            · rcases join_ok_events hj e he with ⟨cid, rfl⟩; exact ⟨_, _, rfl⟩
            · rcases join_ok_events hj e he with ⟨cid, rfl⟩; exact ⟨_, _, rfl⟩
    · -- turn
      unfold ClientThread.action_turn at he
      split at he
      · rcases List.mem_singleton.mp he with rfl; exact ⟨_, _, rfl⟩
      · split at he
        · rcases List.mem_singleton.mp he with rfl; exact ⟨_, _, rfl⟩
        · split at he
          · cases he
          · rcases (messageLoop_sends _ _ _ e he) with ⟨cid, rfl⟩
            exact ⟨_, _, rfl⟩
    · rcases List.mem_singleton.mp he with rfl; exact ⟨_, _, rfl⟩

/-! Connection well-formedness: the lobby a connection holds is registered. -/

def WFconn (c : ClientThread) (R : Registry) : Prop :=
  ∀ code, c.lobby = some code → (dlookup R code).isSome = true

theorem action_identify_WF {c : ClientThread} {R : Registry} {d : JDict} (h : WFconn c R) :
    WFconn (c.action_identify R d).conn (c.action_identify R d).reg := by
  unfold ClientThread.action_identify
  split
  · exact h
  · split
    · exact h
    · exact h

theorem action_create_WF {c : ClientThread} {R : Registry} {cands : List Code4}
    (h : WFconn c R) :
    WFconn (c.action_create R cands).conn (c.action_create R cands).reg := by
  unfold ClientThread.action_create
  split
  · exact h
  · cases hg : Lobby.generate_code R cands with
    | none => rw [create_eq_none hg]; exact h
    | some code =>
      rw [create_eq_some hg]
      intro code0 hc0
      have hc0' : some code = some code0 := hc0
      cases hc0'
      rw [dlookup_dictSet_self]
      rfl

theorem action_join_WF {c : ClientThread} {R : Registry} {d : JDict} (h : WFconn c R) :
    WFconn (c.action_join R d).conn (c.action_join R d).reg := by
  unfold ClientThread.action_join
  split
  · exact h
  · split
    · exact h
    · split
      · exact h
      · exact h
      · exact h
      · exact h
      · next s R' evs f hj =>
        rcases join_ok_reg hj with ⟨l, hl, hR⟩
        subst hR
        split
        · intro code0 hc0
          have hc0' : some s = some code0 := hc0
          cases hc0'
          rw [dlookup_dictSet_self]
          rfl
        · intro code0 hc0
          have hc0' : c.lobby = some code0 := hc0
          by_cases hcs : code0 = s
          · subst hcs; rw [dlookup_dictSet_self]; rfl
          · rw [dlookup_dictSet_ne _ _ _ _ hcs]
            exact h code0 hc0'

theorem action_turn_WF {c : ClientThread} {R : Registry} {d : JDict} (h : WFconn c R) :
    WFconn (c.action_turn R d).conn (c.action_turn R d).reg := by
  unfold ClientThread.action_turn
  repeat' split
  all_goals exact h

theorem handle_message_WF {c : ClientThread} {R : Registry} {d : JDict} {cands : List Code4}
    (h : WFconn c R) :
    WFconn (ClientThread.handle_message c R d cands).conn
      (ClientThread.handle_message c R d cands).reg := by
  unfold ClientThread.handle_message
  split
  · exact h
  · split_ifs
    · exact action_identify_WF h
    · exact action_create_WF h
    · exact action_join_WF h
    · exact action_turn_WF h
    · exact h

theorem processFrames_WF {frames : List Frame} : ∀ {c : ClientThread} {R : Registry},
    WFconn c R → WFconn (processFrames c R frames).conn (processFrames c R frames).reg := by
  induction frames with
  | nil => intro c R h; exact h
  | cons fr rest ih =>
    intro c R h
    cases fr with
    | malformed => exact h
    | good d cands =>
      have h1 := @handle_message_WF c R d cands h
      unfold processFrames
      cases hh : ClientThread.handle_message c R d cands with
      | mk c1 R1 evs1 f =>
        rw [hh] at h1
        cases f with
        | some fl => exact h1
        | none => exact ih h1

theorem processFrames_sends {frames : List Frame} : ∀ {c : ClientThread} {R : Registry},
    ∀ e ∈ (processFrames c R frames).events, ∃ cid dd, e = Event.send cid dd := by
  induction frames with
  | nil => intro c R e he; cases he
  | cons fr rest ih =>
    intro c R e he
    cases fr with
    | malformed => cases he
    | good d cands =>
      unfold processFrames at he
      cases hh : ClientThread.handle_message c R d cands with
      | mk c1 R1 evs1 f =>
        rw [hh] at he
        cases f with
        | some fl => exact handle_events_send c R d cands e (by rw [hh]; exact he)
        | none =>
          rcases List.mem_append.mp he with h1 | h2
          · exact handle_events_send c R d cands e (by rw [hh]; exact h1)
          · exact ih e h2

theorem run_eq_fault_some {c : ClientThread} {R : Registry} {frames : List Frame}
    {c1 : ClientThread} {R1 : Registry} {evs1 : List Event} {f : Fault}
    (hp : processFrames c R frames = ⟨c1, R1, evs1, some f⟩) :
    ClientThread.run c R frames = ⟨c1, R1, evs1, some f⟩ := by
  unfold ClientThread.run
  rw [hp]

theorem run_eq_fault_none {c : ClientThread} {R : Registry} {frames : List Frame}
    {c1 : ClientThread} {R1 : Registry} {evs1 : List Event}
    (hp : processFrames c R frames = ⟨c1, R1, evs1, none⟩) :
    ClientThread.run c R frames =
      ⟨c1, (runCleanup c1 R1).1, evs1 ++ (runCleanup c1 R1).2.1, (runCleanup c1 R1).2.2⟩ := by
  unfold ClientThread.run
  rw [hp]

theorem runCleanup_lobby_none {c : ClientThread} {R : Registry} (hl : c.lobby = none) :
    runCleanup c R = (R, [Event.close], none) := by
  unfold runCleanup
  rw [hl]

theorem runCleanup_lobby_some {c : ClientThread} {R : Registry} {code : String} {l : Lobby}
    (hl : c.lobby = some code) (hr : dlookup R code = some l) :
    runCleanup c R =
      ((registryDisconnect R code (pyToJ c.name)).1,
       Event.disconnectCall code (pyToJ c.name) ::
         (notifyActive (dictSet l.clients (pyToJ c.name) none)
            (disconnectFrame (pyToJ c.name)) ++ [Event.close]), none) := by
  unfold runCleanup
  simp only [hl, registryDisconnect_some hr]
  rfl

/-! Dispatch and per-action equation lemmas. -/

theorem handle_message_identify {c : ClientThread} {R : Registry} {d : JDict}
    {cands : List Code4} (ha : dlookup d "action" = some (JVal.str "identify")) :
    ClientThread.handle_message c R d cands = c.action_identify R d := by
  unfold ClientThread.handle_message
  rw [ha]
  rfl

theorem handle_message_create {c : ClientThread} {R : Registry} {d : JDict}
    {cands : List Code4} (ha : dlookup d "action" = some (JVal.str "create")) :
    ClientThread.handle_message c R d cands = c.action_create R cands := by
  unfold ClientThread.handle_message
  rw [ha]
  rfl

theorem handle_message_join {c : ClientThread} {R : Registry} {d : JDict}
    {cands : List Code4} (ha : dlookup d "action" = some (JVal.str "join")) :
    ClientThread.handle_message c R d cands = c.action_join R d := by
  unfold ClientThread.handle_message
  rw [ha]
  rfl

theorem handle_message_turn {c : ClientThread} {R : Registry} {d : JDict}
    {cands : List Code4} (ha : dlookup d "action" = some (JVal.str "turn")) :
    ClientThread.handle_message c R d cands = c.action_turn R d := by
  unfold ClientThread.handle_message
  rw [ha]
  rfl

/-- The single error frame action_join sends for each join exception. -/
def joinErrFrame : JoinErr → JDict
  | JoinErr.doesntExist => errFrame "lobby_doesnt_exist"
  | JoinErr.mismatched v => mismatchFrame v
  | JoinErr.alreadyConnected => errFrame "already_connected"
  | JoinErr.full => errFrame "lobby_full"

theorem action_join_of_err {c : ClientThread} {R : Registry} {d : JDict} {nm codeV : JVal}
    {e : JoinErr} (hn : c.name = some nm) (hc : dlookup d "code" = some codeV)
    (hj : Lobby.join R c.cid nm c.game_version codeV = JoinRes.err e) :
    c.action_join R d = ⟨c, R, [Event.send c.cid (joinErrFrame e)], none⟩ := by
  unfold ClientThread.action_join
  simp only [hn, hc, hj]
  cases e <;> rfl

theorem action_join_keyError {c : ClientThread} {R : Registry} {d : JDict} {nm : JVal}
    (hn : c.name = some nm) (hc : dlookup d "code" = none) :
    c.action_join R d = ⟨c, R, [], some Fault.keyError⟩ := by
  unfold ClientThread.action_join
  simp only [hn, hc]

theorem action_identify_noName {c : ClientThread} {R : Registry} {d : JDict}
    (hd : dlookup d "name" = none) :
    c.action_identify R d = ⟨c, R, [], some Fault.keyError⟩ := by
  unfold ClientThread.action_identify
  simp only [hd]

theorem action_identify_noGv {c : ClientThread} {R : Registry} {d : JDict} {nv : JVal}
    (hd : dlookup d "name" = some nv) (hg : dlookup d "game_version" = none) :
    c.action_identify R d = ⟨{ c with name := jToPy nv }, R, [], some Fault.keyError⟩ := by
  unfold ClientThread.action_identify
  simp only [hd, hg]

/-! Lobby.join case lemmas. -/

theorem join_err_doesntExist {R : Registry} {cid : Nat} {name : JVal} {version : Option JVal}
    {codeV : JVal} (h : ∀ s, codeV = JVal.str s → dlookup R s = none) :
    Lobby.join R cid name version codeV = JoinRes.err JoinErr.doesntExist := by
  cases codeV with
  | str s =>
    simp only [Lobby.join]
    rw [h s rfl]
  | num n => rfl
  | bool b => rfl
  | null => rfl

theorem join_err_mismatched {R : Registry} {cid : Nat} {name : JVal} {version : Option JVal}
    {s : String} {l : Lobby} (hr : dlookup R s = some l) (hv : l.version ≠ version) :
    Lobby.join R cid name version (JVal.str s) =
      JoinRes.err (JoinErr.mismatched l.version) := by
  simp only [Lobby.join, hr]
  rw [if_pos hv]

theorem join_err_already {R : Registry} {cid : Nat} {name : JVal} {version : Option JVal}
    {s : String} {l : Lobby} {cid2 : Nat} (hr : dlookup R s = some l)
    (hv : l.version = version) (hcl : dlookup l.clients name = some (some cid2)) :
    Lobby.join R cid name version (JVal.str s) = JoinRes.err JoinErr.alreadyConnected := by
  simp only [Lobby.join, hr]
  rw [if_neg (fun hne => hne hv)]
  simp only [hcl]

theorem join_err_full {R : Registry} {cid : Nat} {name : JVal} {version : Option JVal}
    {s : String} {l : Lobby} (hr : dlookup R s = some l) (hv : l.version = version)
    (hcl : dlookup l.clients name = none) (hfull : l.max_players ≤ l.clients.length) :
    Lobby.join R cid name version (JVal.str s) = JoinRes.err JoinErr.full := by
  simp only [Lobby.join, hr]
  rw [if_neg (fun hne => hne hv)]
  simp only [hcl]
  rw [if_pos hfull]

theorem join_ok_of_tombstone {R : Registry} {cid : Nat} {name : JVal} {version : Option JVal}
    {s : String} {l : Lobby} (hr : dlookup R s = some l) (hv : l.version = version)
    (hcl : dlookup l.clients name = some none) :
    ∃ evs f, Lobby.join R cid name version (JVal.str s) =
      JoinRes.ok s (dictSet R s { l with clients := dictSet l.clients name (some cid) })
        evs f := by
  simp only [Lobby.join, hr]
  rw [if_neg (fun hne => hne hv)]
  simp only [hcl]
  exact ⟨_, _, rfl⟩

theorem join_ok_of_space {R : Registry} {cid : Nat} {name : JVal} {version : Option JVal}
    {s : String} {l : Lobby} (hr : dlookup R s = some l) (hv : l.version = version)
    (hcl : dlookup l.clients name = none) (hroom : ¬ l.max_players ≤ l.clients.length) :
    ∃ evs f, Lobby.join R cid name version (JVal.str s) =
      JoinRes.ok s (dictSet R s { l with clients := dictSet l.clients name (some cid) })
        evs f := by
  simp only [Lobby.join, hr]
  rw [if_neg (fun hne => hne hv)]
  simp only [hcl]
  rw [if_neg hroom]
  exact ⟨_, _, rfl⟩

/-! Claim C2. -/

/-- C2 failing input: a 2-member lobby in which Bob has disconnected and been
tombstoned; Alice (cid 1) then sends a turn. -/
def c2Lobby : Lobby :=
  ⟨"ABCD", some (JVal.str "v1"), [(JVal.str "Alice", some 1), (JVal.str "Bob", none)], 2⟩

def c2Reg : Registry := [("ABCD", c2Lobby)]

def c2Conn : ClientThread := ⟨1, some (JVal.str "Alice"), some (JVal.str "v1"), some "ABCD"⟩

def c2Turn : JDict := [("action", JVal.str "turn"), ("move", JVal.num 5)]

/-- C2: contrary to the claim, Lobby.message does not skip a tombstoned member
entry: broadcasting a turn in a lobby holding one active and one tombstoned
member attempts delivery to the tombstone (Python AttributeError on
None.send_json), delivers the payload to nobody, and the uncaught exception
aborts the sender's session without the disconnect cleanup. -/
theorem c2_broadcast_tombstone_crash :
    ((JVal.str "Bob", none) ∈ c2Lobby.clients ∧ (JVal.str "Alice", some 1) ∈ c2Lobby.clients) ∧
    Lobby.message c2Lobby c2Turn [1] = ([], some Fault.attrError) ∧
    ClientThread.handle_message c2Conn c2Reg c2Turn [] =
      ⟨c2Conn, c2Reg, [], some Fault.attrError⟩ ∧
    ClientThread.run c2Conn c2Reg [Frame.good c2Turn []] =
      ⟨c2Conn, c2Reg, [], some Fault.attrError⟩ := by
  refine ⟨⟨by decide, by decide⟩, rfl, ?_, ?_⟩ <;> decide

/-! Claim C3. -/

/-- C3 input: a lobby at capacity 2 holding one active member A and one
tombstoned member B. -/
def c3Lobby : Lobby :=
  ⟨"ABCD", some (JVal.str "v1"), [(JVal.str "A", some 1), (JVal.str "B", none)], 2⟩

def c3Reg : Registry := [("ABCD", c3Lobby)]

/-- C3 counterexample: the lobby has a tombstoned slot (B) and two member
entries, yet a join by the third, distinct name C fails with the lobby-full
error instead of succeeding, refuting the claimed iff. -/
theorem c3_counterexample :
    dlookup c3Lobby.clients (JVal.str "B") = some none ∧
    c3Lobby.clients.length = 2 ∧
    dlookup c3Lobby.clients (JVal.str "C") = none ∧
    Lobby.join c3Reg 2 (JVal.str "C") (some (JVal.str "v1")) (JVal.str "ABCD") =
      JoinRes.err JoinErr.full := by
  exact ⟨rfl, rfl, rfl, rfl⟩

/-- C3 amended: with the code registered and the version matching, join fails
with the lobby-full error iff the joining name is absent from the member map
(tombstoned entries included) and the map already holds capacity (2) entries;
a tombstoned slot is overwritten, and the join succeeds, only when the join
uses that tombstoned member's own name. -/
theorem c3_lobby_full_iff (R : Registry) (cid : Nat) (name : JVal) (version : Option JVal)
    (s : String) (l : Lobby) (hr : dlookup R s = some l) (hv : l.version = version)
    (hcap : l.max_players = 2) :
    (Lobby.join R cid name version (JVal.str s) = JoinRes.err JoinErr.full ↔
      dlookup l.clients name = none ∧ 2 ≤ l.clients.length) ∧
    (dlookup l.clients name = some none →
      ∃ evs f, Lobby.join R cid name version (JVal.str s) =
        JoinRes.ok s (dictSet R s { l with clients := dictSet l.clients name (some cid) })
          evs f ∧
      dlookup (dictSet l.clients name (some cid)) name = some (some cid)) := by
  constructor
  · constructor
    · intro hfull
      cases hcl : dlookup l.clients name with
      | some w =>
        cases w with
        | some cid2 => rw [join_err_already hr hv hcl] at hfull; cases hfull
        | none =>
          rcases @join_ok_of_tombstone _ cid _ _ _ _ hr hv hcl with ⟨evs, f, hok⟩
          rw [hok] at hfull; cases hfull
      | none =>
        by_cases hroom : l.max_players ≤ l.clients.length
        · exact ⟨rfl, hcap ▸ hroom⟩
        · rcases @join_ok_of_space _ cid _ _ _ _ hr hv hcl hroom with ⟨evs, f, hok⟩
          rw [hok] at hfull; cases hfull
    · rintro ⟨hcl, hlen⟩
      exact join_err_full hr hv hcl (by rw [hcap]; exact hlen)
  · intro hcl
    rcases @join_ok_of_tombstone _ cid _ _ _ _ hr hv hcl with ⟨evs, f, hok⟩
    exact ⟨evs, f, hok, dlookup_dictSet_self _ _ _⟩

/-- C3 witness: the amended characterization applied to the concrete lobby,
once for the tombstoned name B and once for the fresh name C. -/
theorem c3_lobby_full_iff_witness :
    ((Lobby.join c3Reg 2 (JVal.str "B") (some (JVal.str "v1")) (JVal.str "ABCD") =
        JoinRes.err JoinErr.full ↔
      dlookup c3Lobby.clients (JVal.str "B") = none ∧ 2 ≤ c3Lobby.clients.length) ∧
    (dlookup c3Lobby.clients (JVal.str "B") = some none →
      ∃ evs f, Lobby.join c3Reg 2 (JVal.str "B") (some (JVal.str "v1")) (JVal.str "ABCD") =
        JoinRes.ok "ABCD"
          (dictSet c3Reg "ABCD"
            { c3Lobby with clients := dictSet c3Lobby.clients (JVal.str "B") (some 2) })
          evs f ∧
      dlookup (dictSet c3Lobby.clients (JVal.str "B") (some 2)) (JVal.str "B") =
        some (some 2))) ∧
    ((Lobby.join c3Reg 2 (JVal.str "C") (some (JVal.str "v1")) (JVal.str "ABCD") =
        JoinRes.err JoinErr.full ↔
      dlookup c3Lobby.clients (JVal.str "C") = none ∧ 2 ≤ c3Lobby.clients.length) ∧
    (dlookup c3Lobby.clients (JVal.str "C") = some none →
      ∃ evs f, Lobby.join c3Reg 2 (JVal.str "C") (some (JVal.str "v1")) (JVal.str "ABCD") =
        JoinRes.ok "ABCD"
          (dictSet c3Reg "ABCD"
            { c3Lobby with clients := dictSet c3Lobby.clients (JVal.str "C") (some 2) })
          evs f ∧
      dlookup (dictSet c3Lobby.clients (JVal.str "C") (some 2)) (JVal.str "C") =
        some (some 2))) :=
  ⟨c3_lobby_full_iff c3Reg 2 (JVal.str "B") (some (JVal.str "v1")) "ABCD" c3Lobby rfl rfl rfl,
   c3_lobby_full_iff c3Reg 2 (JVal.str "C") (some (JVal.str "v1")) "ABCD" c3Lobby rfl rfl rfl⟩

/-! Claim C8. -/

def c8Lobby : Lobby := ⟨"ABCD", some (JVal.str "v1"), [(JVal.str "A", some 1)], 2⟩

def c8Reg : Registry := [("ABCD", c8Lobby)]

def c8Conn : ClientThread := ⟨1, some (JVal.str "A"), some (JVal.str "v1"), some "ABCD"⟩

/-- The four random draws spelling the candidate code WXYZ. -/
def c8Pick : Code4 := (22, 23, 24, 25)

/-- C8 counterexample: a connection already in lobby ABCD that sends a second
create command ends up in the freshly created lobby WXYZ — a create while
InLobby does change which lobby the connection references. -/
theorem c8_counterexample :
    c8Conn.lobby = some "ABCD" ∧
    (ClientThread.handle_message c8Conn c8Reg [("action", JVal.str "create")]
        [c8Pick]).conn.lobby = some "WXYZ" ∧
    ("WXYZ" : String) ≠ "ABCD" := by
  refine ⟨rfl, ?_, by decide⟩
  decide

/-- C8 amended: no command ever clears the lobby attribute — a connection in a
lobby never returns to the lobby-less (merely identified) state — though a
subsequent create or successful join may replace which lobby it references. -/
theorem c8_lobby_never_cleared (c : ClientThread) (R : Registry) (d : JDict)
    (cands : List Code4) (code : String) (hl : c.lobby = some code) :
    ∃ code2, (ClientThread.handle_message c R d cands).conn.lobby = some code2 := by
  unfold ClientThread.handle_message
  split
  · exact ⟨code, hl⟩
  · split_ifs
    · unfold ClientThread.action_identify
      repeat' split
      all_goals exact ⟨code, hl⟩
    · unfold ClientThread.action_create
      split
      · exact ⟨code, hl⟩
      · cases hg : Lobby.generate_code R cands with
        | none => rw [create_eq_none hg]; exact ⟨code, hl⟩
        | some code2 => rw [create_eq_some hg]; exact ⟨code2, rfl⟩
    · unfold ClientThread.action_join
      split
      · exact ⟨code, hl⟩
      · split
        · exact ⟨code, hl⟩
        · split
          · exact ⟨code, hl⟩
          · exact ⟨code, hl⟩
          · exact ⟨code, hl⟩
          · exact ⟨code, hl⟩
          · next s R2 evs f hj =>
            split
            · exact ⟨s, rfl⟩
            · exact ⟨code, hl⟩
    · unfold ClientThread.action_turn
      repeat' split
      all_goals exact ⟨code, hl⟩
    · exact ⟨code, hl⟩

/-- C8 witness: the amended theorem at the concrete in-lobby connection. -/
theorem c8_lobby_never_cleared_witness :
    ∃ code2, (ClientThread.handle_message c8Conn c8Reg [("action", JVal.str "create")]
      [c8Pick]).conn.lobby = some code2 :=
  c8_lobby_never_cleared c8Conn c8Reg [("action", JVal.str "create")] [c8Pick] "ABCD" rfl

/-! Claim C10. -/

/-- C10: a join frame lacking the code field (from an identified connection),
or an identify frame lacking the name or game_version field, raises an
uncaught KeyError: the session aborts with no frame sent to the client, no
registry disconnect, no socket close, and the registry untouched. -/
theorem c10_missing_key_fatal (c : ClientThread) (R : Registry) (d : JDict)
    (cands : List Code4) (nm : JVal)
    (hcase : (c.name = some nm ∧ dlookup d "action" = some (JVal.str "join") ∧
        dlookup d "code" = none) ∨
      (dlookup d "action" = some (JVal.str "identify") ∧
        (dlookup d "name" = none ∨ dlookup d "game_version" = none))) :
    ∃ c1, ClientThread.run c R [Frame.good d cands] = ⟨c1, R, [], some Fault.keyError⟩ := by
  have hh : ∃ c1, ClientThread.handle_message c R d cands =
      ⟨c1, R, [], some Fault.keyError⟩ := by
    rcases hcase with ⟨hn, ha, hc⟩ | ⟨ha, hkey⟩
    · exact ⟨c, by rw [handle_message_join ha, action_join_keyError hn hc]⟩
    · rcases hkey with hname | hgv
      · exact ⟨c, by rw [handle_message_identify ha, action_identify_noName hname]⟩
      · cases hname2 : dlookup d "name" with
        | none => exact ⟨c, by rw [handle_message_identify ha, action_identify_noName hname2]⟩
        | some nv =>
          exact ⟨{ c with name := jToPy nv },
            by rw [handle_message_identify ha, action_identify_noGv hname2 hgv]⟩
  rcases hh with ⟨c1, hh⟩
  refine ⟨c1, ?_⟩
  have hp : processFrames c R [Frame.good d cands] = ⟨c1, R, [], some Fault.keyError⟩ := by
    unfold processFrames
    rw [hh]
  exact run_eq_fault_some hp

def c10Conn : ClientThread := ⟨1, some (JVal.str "A"), some (JVal.str "v1"), some "ABCD"⟩

def c10Reg : Registry :=
  [("ABCD", ⟨"ABCD", some (JVal.str "v1"), [(JVal.str "A", some 1)], 2⟩)]

/-- C10 witness: an identified, in-lobby connection sending a join frame with
no code field crashes with KeyError and no cleanup events. -/
theorem c10_missing_key_fatal_witness :
    ∃ c1, ClientThread.run c10Conn c10Reg [Frame.good [("action", JVal.str "join")] []] =
      ⟨c1, c10Reg, [], some Fault.keyError⟩ :=
  c10_missing_key_fatal c10Conn c10Reg [("action", JVal.str "join")] [] (JVal.str "A")
    (Or.inl ⟨rfl, rfl, rfl⟩)

/-! Claim C4. -/

/-- C4: every failing join request — unknown code, version mismatch, name
already active, or lobby full — sends exactly one error frame of the
corresponding type to the requester alone (the mismatch frame carrying the
lobby's stored version), leaves the connection unchanged, and leaves the
entire registry, hence every lobby's membership, unchanged. -/
theorem c4_join_error_atomic (c : ClientThread) (R : Registry) (d : JDict)
    (cands : List Code4) (nm codeV : JVal)
    (hn : c.name = some nm) (ha : dlookup d "action" = some (JVal.str "join"))
    (hc : dlookup d "code" = some codeV) :
    ((∀ s, codeV = JVal.str s → dlookup R s = none) →
      ClientThread.handle_message c R d cands =
        ⟨c, R, [Event.send c.cid (errFrame "lobby_doesnt_exist")], none⟩) ∧
    (∀ s l, codeV = JVal.str s → dlookup R s = some l → l.version ≠ c.game_version →
      ClientThread.handle_message c R d cands =
        ⟨c, R, [Event.send c.cid (mismatchFrame l.version)], none⟩) ∧
    (∀ s l cid2, codeV = JVal.str s → dlookup R s = some l → l.version = c.game_version →
      dlookup l.clients nm = some (some cid2) →
      ClientThread.handle_message c R d cands =
        ⟨c, R, [Event.send c.cid (errFrame "already_connected")], none⟩) ∧
    (∀ s l, codeV = JVal.str s → dlookup R s = some l → l.version = c.game_version →
      dlookup l.clients nm = none → l.max_players ≤ l.clients.length →
      ClientThread.handle_message c R d cands =
        ⟨c, R, [Event.send c.cid (errFrame "lobby_full")], none⟩) := by
  refine ⟨?_, ?_, ?_, ?_⟩
  · intro h
    rw [handle_message_join ha, action_join_of_err hn hc (join_err_doesntExist h)]
    rfl
  · rintro s l rfl hr hv
    rw [handle_message_join ha, action_join_of_err hn hc (join_err_mismatched hr hv)]
    rfl
  · rintro s l cid2 rfl hr hv hcl
    rw [handle_message_join ha, action_join_of_err hn hc (join_err_already hr hv hcl)]
    rfl
  · rintro s l rfl hr hv hcl hfull
    rw [handle_message_join ha, action_join_of_err hn hc (join_err_full hr hv hcl hfull)]
    rfl

def c4Lobby : Lobby :=
  ⟨"ABCD", some (JVal.str "v1"), [(JVal.str "A", some 1), (JVal.str "B", some 2)], 2⟩

def c4Reg : Registry := [("ABCD", c4Lobby)]

def c4Conn : ClientThread := ⟨3, some (JVal.str "C"), some (JVal.str "v2"), none⟩

def c4Join : JDict := [("action", JVal.str "join"), ("code", JVal.str "ABCD")]

/-- C4 witness: a version-mismatched join at concrete state sends exactly the
mismatched_version frame (carrying v1, the lobby's version) to the requester
and leaves connection and registry unchanged. -/
theorem c4_join_error_atomic_witness :
    ClientThread.handle_message c4Conn c4Reg c4Join [] =
      ⟨c4Conn, c4Reg, [Event.send 3 (mismatchFrame (some (JVal.str "v1")))], none⟩ :=
  (c4_join_error_atomic c4Conn c4Reg c4Join [] (JVal.str "C") (JVal.str "ABCD")
      rfl rfl rfl).2.1 "ABCD" c4Lobby rfl rfl (by decide)

/-! Claim C7. -/

theorem messageLoop_cons_skip {n : JVal} {cid : Nat} {rest : List (JVal × Option Nat)}
    {d : JDict} {ex : List Nat} (h : cid ∈ ex) :
    messageLoop ((n, some cid) :: rest) d ex = messageLoop rest d ex := by
  conv_lhs => unfold messageLoop
  rw [if_pos h]

theorem messageLoop_cons_send {n : JVal} {cid : Nat} {rest : List (JVal × Option Nat)}
    {d : JDict} {ex : List Nat} (h : cid ∉ ex) :
    messageLoop ((n, some cid) :: rest) d ex =
      (Event.send cid d :: (messageLoop rest d ex).1, (messageLoop rest d ex).2) := by
  conv_lhs => unfold messageLoop
  rw [if_neg h]

theorem messageLoop_nil {d : JDict} {ex : List Nat} : messageLoop [] d ex = ([], none) := rfl

/-- C7: a turn sent by an in-lobby member of a fully active two-member lobby
is delivered exactly once, to the other member only, with the name field set
to the sender's identity and every other field unchanged; nothing else
changes and no fault occurs. -/
theorem c7_turn_relay (c : ClientThread) (R : Registry) (d : JDict) (cands : List Code4)
    (code : String) (l : Lobby) (nm n2 : JVal) (cid2 : Nat)
    (hn : c.name = some nm) (hl : c.lobby = some code) (hr : dlookup R code = some l)
    (ha : dlookup d "action" = some (JVal.str "turn"))
    (hcl : l.clients = [(nm, some c.cid), (n2, some cid2)] ∨
           l.clients = [(n2, some cid2), (nm, some c.cid)])
    (hne : cid2 ≠ c.cid) :
    ClientThread.handle_message c R d cands =
      ⟨c, R, [Event.send cid2 (dictSet d "name" nm)], none⟩ ∧
    dlookup (dictSet d "name" nm) "name" = some nm ∧
    (∀ k, k ≠ "name" → dlookup (dictSet d "name" nm) k = dlookup d k) := by
  refine ⟨?_, dlookup_dictSet_self _ _ _, fun k hk => dlookup_dictSet_ne _ _ _ _ hk⟩
  rw [handle_message_turn ha]
  unfold ClientThread.action_turn
  simp only [hn, hl, hr, pyToJ]
  have hmsg : l.message (dictSet d "name" nm) [c.cid] =
      ([Event.send cid2 (dictSet d "name" nm)], none) := by
    unfold Lobby.message
    rcases hcl with h2 | h2
    · rw [h2, messageLoop_cons_skip (List.mem_singleton.mpr rfl),
        messageLoop_cons_send (fun hm => hne (List.mem_singleton.mp hm)), messageLoop_nil]
    · rw [h2, messageLoop_cons_send (fun hm => hne (List.mem_singleton.mp hm)),
        messageLoop_cons_skip (List.mem_singleton.mpr rfl), messageLoop_nil]
  rw [hmsg]

def c7Lobby : Lobby :=
  ⟨"ABCD", some (JVal.str "v1"), [(JVal.str "Alice", some 1), (JVal.str "Bob", some 2)], 2⟩

def c7Reg : Registry := [("ABCD", c7Lobby)]

def c7Conn : ClientThread := ⟨1, some (JVal.str "Alice"), some (JVal.str "v1"), some "ABCD"⟩

def c7Turn : JDict := [("action", JVal.str "turn"), ("move", JVal.num 5)]

/-- C7 witness: Alice's turn reaches exactly Bob, named and otherwise
unchanged. -/
theorem c7_turn_relay_witness :
    ClientThread.handle_message c7Conn c7Reg c7Turn [] =
      ⟨c7Conn, c7Reg, [Event.send 2 (dictSet c7Turn "name" (JVal.str "Alice"))], none⟩ ∧
    dlookup (dictSet c7Turn "name" (JVal.str "Alice")) "name" = some (JVal.str "Alice") ∧
    (∀ k, k ≠ "name" →
      dlookup (dictSet c7Turn "name" (JVal.str "Alice")) k = dlookup c7Turn k) :=
  c7_turn_relay c7Conn c7Reg c7Turn [] "ABCD" c7Lobby (JVal.str "Alice") (JVal.str "Bob") 2
    rfl rfl rfl rfl (Or.inl rfl) (by decide)

/-! Claim C5. -/

/-- C5: in every registry state reachable by the registry operations, each
registered lobby holds at least one non-tombstoned member entry; and when a
disconnect tombstones the last active member (leaving every entry
tombstoned), the lobby is removed from the registry. -/
theorem c5_lobby_liveness :
    (∀ R, Reachable R → ∀ p ∈ R, ∃ q ∈ p.2.clients, q.2 ≠ none) ∧
    (∀ (R : Registry) (code : String) (name : JVal) (l : Lobby),
      dlookup R code = some l →
      (dictSet l.clients name none).all (fun q => q.2.isNone) = true →
      dlookup (applyROp R (ROp.discoOp code name)) code = none) := by
  constructor
  · intro R h p hp
    exact ((reachable_inv h).2 p hp).2
  · intro R code name l hr hall
    show dlookup (registryDisconnect R code name).1 code = none
    rw [registryDisconnect_some hr]
    show dlookup (if (dictSet l.clients name none).all (fun q => q.2.isNone) = true
        then dictDel R code
        else dictSet R code { l with clients := dictSet l.clients name none }) code = none
    rw [if_pos hall]
    exact dlookup_dictDel_self _ _

def c5Pick : Code4 := (0, 0, 0, 0)

def c5Lobby : Lobby := ⟨"ABCD", some (JVal.str "v1"), [(JVal.str "A", some 1)], 2⟩

def c5Reg : Registry := [("ABCD", c5Lobby)]

def c5CreateOp : ROp := ROp.createOp 1 (JVal.str "A") (some (JVal.str "v1")) [c5Pick]

/-- C5 witness: the freshly created lobby AAAA has an active member, and
tombstoning the sole active member A of lobby ABCD removes it. -/
theorem c5_lobby_liveness_witness :
    (∃ q ∈ (Lobby.mk "AAAA" (some (JVal.str "v1")) [(JVal.str "A", some 1)] 2).clients,
      q.2 ≠ none) ∧
    dlookup (applyROp c5Reg (ROp.discoOp "ABCD" (JVal.str "A"))) "ABCD" = none :=
  ⟨c5_lobby_liveness.1 (applyROp [] c5CreateOp) (Reachable.step c5CreateOp Reachable.base)
      ("AAAA", Lobby.mk "AAAA" (some (JVal.str "v1")) [(JVal.str "A", some 1)] 2) (by decide),
   c5_lobby_liveness.2 c5Reg "ABCD" (JVal.str "A") c5Lobby rfl (by decide)⟩

/-! Claim C6. -/

/-- C6: every code generate_code returns is exactly 4 characters, each drawn
from the fixed 26-letter uppercase alphabet, and is absent from the registry
at the moment it is returned; and every reachable registry state holds
pairwise-distinct codes, so no two simultaneously-active lobbies share one. -/
theorem c6_codes_unique :
    (∀ (R : Registry) (cands : List Code4) (code : String),
      Lobby.generate_code R cands = some code →
      code.length = 4 ∧ (∀ ch ∈ code.data, ch ∈ codeAlphabet) ∧ dlookup R code = none) ∧
    (∀ R, Reachable R → R.Pairwise (fun a b => a.1 ≠ b.1)) :=
  ⟨fun _ _ _ h => generate_code_spec h, fun _ h => (reachable_inv h).1⟩

def c6OpA : ROp := ROp.createOp 1 (JVal.str "A") (some (JVal.str "v1")) [(0, 0, 0, 0)]

def c6OpB : ROp :=
  ROp.createOp 2 (JVal.str "B") (some (JVal.str "v1")) [(0, 0, 0, 0), (1, 1, 1, 1)]

def c6Reg : Registry := applyROp (applyROp [] c6OpA) c6OpB

/-- C6 witness: with AAAA taken, the generator retries its colliding first
draw and returns the fresh 4-letter BBBB; the two-lobby registry reached by
the two creates has pairwise-distinct codes. -/
theorem c6_codes_unique_witness :
    (("BBBB" : String).length = 4 ∧ (∀ ch ∈ ("BBBB" : String).data, ch ∈ codeAlphabet) ∧
      dlookup (applyROp [] c6OpA) "BBBB" = none) ∧
    c6Reg.Pairwise (fun a b => a.1 ≠ b.1) :=
  ⟨c6_codes_unique.1 (applyROp [] c6OpA) [(0, 0, 0, 0), (1, 1, 1, 1)] "BBBB" (by decide),
   c6_codes_unique.2 c6Reg (Reachable.step c6OpB (Reachable.step c6OpA Reachable.base))⟩

/-! Claim C1. -/

/-- C1 amended: when the frame loop ends by end-of-stream without a fault and
the connection is in a lobby, the run invokes registry disconnect — logging
the disconnect invocation, then only send notifications — strictly before the
socket close; when the loop instead aborts with a fault (a decode fault or an
uncaught handler exception), the run performs no disconnect invocation and no
close at all: its events are the loop's events, which are all sends. -/
theorem c1_cleanup_on_termination (c : ClientThread) (R : Registry) (frames : List Frame)
    (hwf : WFconn c R) :
    (∀ c1 R1 evs1, processFrames c R frames = ⟨c1, R1, evs1, none⟩ →
      ∀ code, c1.lobby = some code →
      ∃ evs2, (∀ e ∈ evs2, ∃ cid dd, e = Event.send cid dd) ∧
        ClientThread.run c R frames =
          ⟨c1, (runCleanup c1 R1).1,
           evs1 ++ Event.disconnectCall code (pyToJ c1.name) :: (evs2 ++ [Event.close]),
           none⟩) ∧
    (∀ c1 R1 evs1 f, processFrames c R frames = ⟨c1, R1, evs1, some f⟩ →
      ClientThread.run c R frames = ⟨c1, R1, evs1, some f⟩ ∧
      Event.close ∉ evs1 ∧ (∀ code2 nm2, Event.disconnectCall code2 nm2 ∉ evs1)) := by
  constructor
  · intro c1 R1 evs1 hp code hcode
    have hwf1 : WFconn c1 R1 := by
      have h2 := @processFrames_WF frames c R hwf
      rw [hp] at h2
      exact h2
    rcases Option.isSome_iff_exists.mp (hwf1 code hcode) with ⟨l, hl⟩
    refine ⟨notifyActive (dictSet l.clients (pyToJ c1.name) none)
        (disconnectFrame (pyToJ c1.name)), ?_, ?_⟩
    · intro e he
      rcases notifyActive_sends _ _ e he with ⟨cid, rfl⟩
      exact ⟨_, _, rfl⟩
    · rw [run_eq_fault_none hp, runCleanup_lobby_some hcode hl]
  · intro c1 R1 evs1 f hp
    refine ⟨run_eq_fault_some hp, ?_, ?_⟩
    · intro hmem
      rcases @processFrames_sends frames c R Event.close
          (by rw [hp]; exact hmem) with ⟨cid, dd, h⟩
      cases h
    · intro code2 nm2 hmem
      rcases @processFrames_sends frames c R _
          (by rw [hp]; exact hmem) with ⟨cid, dd, h⟩
      cases h

def c1xConn : ClientThread := ⟨1, some (JVal.str "A"), some (JVal.str "v1"), some "ABCD"⟩

def c1xReg : Registry :=
  [("ABCD", ⟨"ABCD", some (JVal.str "v1"),
    [(JVal.str "A", some 1), (JVal.str "B", some 2)], 2⟩)]

/-- C1 counterexample: a connection that had joined lobby ABCD whose stream
terminates by a decode fault ends with no events at all — registry disconnect
is not invoked and the stream resource is not released, against the claim
that a decode fault also triggers the disconnect path. -/
theorem c1_counterexample :
    c1xConn.lobby = some "ABCD" ∧
    ClientThread.run c1xConn c1xReg [Frame.malformed] =
      ⟨c1xConn, c1xReg, [], some Fault.decodeError⟩ :=
  ⟨rfl, rfl⟩

def c1wConn : ClientThread := ⟨1, some (JVal.str "A"), some (JVal.str "v1"), some "ABCD"⟩

def c1wReg : Registry :=
  [("ABCD", ⟨"ABCD", some (JVal.str "v1"),
    [(JVal.str "A", some 1), (JVal.str "B", some 2)], 2⟩)]

/-- C1 witness: on immediate end-of-stream the in-lobby connection's run logs
the disconnect invocation before the close. -/
theorem c1_cleanup_on_termination_witness :
    ∃ evs2, (∀ e ∈ evs2, ∃ cid dd, e = Event.send cid dd) ∧
      ClientThread.run c1wConn c1wReg [] =
        ⟨c1wConn, (runCleanup c1wConn c1wReg).1,
         [] ++ Event.disconnectCall "ABCD" (pyToJ c1wConn.name) ::
           (evs2 ++ [Event.close]), none⟩ :=
  (c1_cleanup_on_termination c1wConn c1wReg []
      (by intro code h; injection h with h2; subst h2; rfl)).1
    c1wConn c1wReg [] rfl "ABCD" rfl

/-! Claim C9. -/

theorem recvCall_buffered {stream : List RecvEv} {buffer : List Nat} (h : 10 ∈ buffer) :
    recvCall stream buffer =
      (decodeRes (buffer.takeWhile (fun b => b != 10)),
       (buffer.dropWhile (fun b => b != 10)).tail, stream) := by
  unfold recvCall
  rw [if_pos h]

theorem recvCall_eos_nil {buffer : List Nat} (h : 10 ∉ buffer) :
    recvCall [] buffer = (RecvRes.eos, buffer, []) := by
  unfold recvCall
  rw [if_neg h]

theorem recvCall_eos_reset {s : List RecvEv} {buffer : List Nat} (h : 10 ∉ buffer) :
    recvCall (RecvEv.reset :: s) buffer = (RecvRes.eos, buffer, s) := by
  unfold recvCall
  rw [if_neg h]

theorem recvCall_eos_closed {s : List RecvEv} {buffer : List Nat} (h : 10 ∉ buffer) :
    recvCall (RecvEv.chunk [] :: s) buffer = (RecvRes.eos, buffer, s) := by
  unfold recvCall
  rw [if_neg h]

theorem recvCall_step {s : List RecvEv} {buffer : List Nat} {b : Nat} {bs2 : List Nat}
    (h : 10 ∉ buffer) :
    recvCall (RecvEv.chunk (b :: bs2) :: s) buffer = recvCall s (buffer ++ (b :: bs2)) := by
  conv_lhs => unfold recvCall
  rw [if_neg h]

/-- The full behaviour of one receiver call: it consumes a minimal prefix of
nonempty chunks (reading nothing once a delimiter is buffered), then either a
delimiter is available — the first record is returned decoded with the
remainder retained and the rest of the stream untouched — or the stream ends,
resets, or delivers the empty read, and the call signals end-of-stream with
the accumulator intact. -/
theorem recvCall_cases (stream : List RecvEv) : ∀ buffer : List Nat,
    ∃ pre rest, stream = pre ++ rest ∧
      (∀ e ∈ pre, ∃ bs, e = RecvEv.chunk bs ∧ bs ≠ []) ∧
      (∀ k, k < pre.length → 10 ∉ buffer ++ chunksBytes (List.take k pre)) ∧
      ((10 ∈ buffer ++ chunksBytes pre ∧
        recvCall stream buffer =
          (decodeRes ((buffer ++ chunksBytes pre).takeWhile (fun b => b != 10)),
           ((buffer ++ chunksBytes pre).dropWhile (fun b => b != 10)).tail, rest)) ∨
       (10 ∉ buffer ++ chunksBytes pre ∧
        (recvCall stream buffer).1 = RecvRes.eos ∧
        (recvCall stream buffer).2.1 = buffer ++ chunksBytes pre ∧
        (rest = [] ∧ (recvCall stream buffer).2.2 = [] ∨
         (∃ s2, rest = RecvEv.reset :: s2 ∧ (recvCall stream buffer).2.2 = s2) ∨
         (∃ s2, rest = RecvEv.chunk [] :: s2 ∧ (recvCall stream buffer).2.2 = s2)))) := by
  induction stream with
  | nil =>
    intro buffer
    refine ⟨[], [], rfl, (by intro e he; cases he), (by intro k hk; cases hk), ?_⟩
    by_cases h : 10 ∈ buffer
    · refine Or.inl ⟨(by simpa [chunksBytes] using h), ?_⟩
      rw [recvCall_buffered h]
      simp [chunksBytes]
    · have hr := recvCall_eos_nil h
      refine Or.inr ⟨(by simpa [chunksBytes] using h), (by rw [hr]), ?_, Or.inl ⟨rfl, (by rw [hr])⟩⟩
      rw [hr]
      simp [chunksBytes]
  | cons ev s ih =>
    intro buffer
    by_cases h : 10 ∈ buffer
    · refine ⟨[], ev :: s, rfl, (by intro e he; cases he), (by intro k hk; cases hk),
        Or.inl ⟨(by simpa [chunksBytes] using h), ?_⟩⟩
      rw [recvCall_buffered h]
      simp [chunksBytes]
    · cases ev with
      | reset =>
        have hr := recvCall_eos_reset (s := s) h
        refine ⟨[], RecvEv.reset :: s, rfl, (by intro e he; cases he), (by intro k hk; cases hk),
          Or.inr ⟨(by simpa [chunksBytes] using h), (by rw [hr]), ?_,
            Or.inr (Or.inl ⟨s, rfl, (by rw [hr])⟩)⟩⟩
        rw [hr]
        simp [chunksBytes]
      | chunk bs =>
        cases bs with
        | nil =>
          have hr := recvCall_eos_closed (s := s) h
          refine ⟨[], RecvEv.chunk [] :: s, rfl, (by intro e he; cases he),
            (by intro k hk; cases hk),
            Or.inr ⟨(by simpa [chunksBytes] using h), (by rw [hr]), ?_,
              Or.inr (Or.inr ⟨s, rfl, (by rw [hr])⟩)⟩⟩
          rw [hr]
          simp [chunksBytes]
        | cons b bs2 =>
          rcases ih (buffer ++ (b :: bs2)) with ⟨pre, rest, hsplit, hchunks, hmin, hcase⟩
          have hacc : (buffer ++ (b :: bs2)) ++ chunksBytes pre =
              buffer ++ chunksBytes (RecvEv.chunk (b :: bs2) :: pre) := by
            simp [chunksBytes]
          have hstep : recvCall (RecvEv.chunk (b :: bs2) :: s) buffer =
              recvCall s (buffer ++ (b :: bs2)) := recvCall_step h
          refine ⟨RecvEv.chunk (b :: bs2) :: pre, rest, (by rw [List.cons_append, hsplit]), ?_, ?_, ?_⟩
          · intro e he
            rcases List.mem_cons.mp he with rfl | hm
            · exact ⟨b :: bs2, rfl, by simp⟩
            · exact hchunks e hm
          · intro k hk
            cases k with
            | zero =>
              intro hmem
              exact h (by simpa [chunksBytes] using hmem)
            | succ k2 =>
              intro hmem
              refine hmin k2 (by simp only [List.length_cons] at hk; omega) ?_
              have ht : List.take (k2 + 1) (RecvEv.chunk (b :: bs2) :: pre) =
                  RecvEv.chunk (b :: bs2) :: List.take k2 pre := rfl
              rw [ht] at hmem
              simpa [chunksBytes, List.append_assoc] using hmem
          · rw [hstep, ← hacc]
            exact hcase

/-- C9: each receiver call reads from the stream only while no complete
newline-terminated record is buffered; with a record available it returns at
once — the record delimiter-stripped and UTF-8-decoded, the remainder
retained, the stream untouched; a closed or reset stream yields the
end-of-stream signal, not an error; and in general a call consumes a minimal
prefix of nonempty chunks and then behaves one of these two ways. -/
theorem c9_receiver_spec (stream : List RecvEv) (buffer : List Nat) :
    (10 ∈ buffer →
      recvCall stream buffer =
        (decodeRes (buffer.takeWhile (fun b => b != 10)),
         (buffer.dropWhile (fun b => b != 10)).tail, stream)) ∧
    (10 ∉ buffer →
      recvCall [] buffer = (RecvRes.eos, buffer, []) ∧
      (∀ s, recvCall (RecvEv.reset :: s) buffer = (RecvRes.eos, buffer, s)) ∧
      (∀ s, recvCall (RecvEv.chunk [] :: s) buffer = (RecvRes.eos, buffer, s))) ∧
    (∃ pre rest, stream = pre ++ rest ∧
      (∀ e ∈ pre, ∃ bs, e = RecvEv.chunk bs ∧ bs ≠ []) ∧
      (∀ k, k < pre.length → 10 ∉ buffer ++ chunksBytes (List.take k pre)) ∧
      ((10 ∈ buffer ++ chunksBytes pre ∧
        recvCall stream buffer =
          (decodeRes ((buffer ++ chunksBytes pre).takeWhile (fun b => b != 10)),
           ((buffer ++ chunksBytes pre).dropWhile (fun b => b != 10)).tail, rest)) ∨
       (10 ∉ buffer ++ chunksBytes pre ∧
        (recvCall stream buffer).1 = RecvRes.eos ∧
        (recvCall stream buffer).2.1 = buffer ++ chunksBytes pre ∧
        (rest = [] ∧ (recvCall stream buffer).2.2 = [] ∨
         (∃ s2, rest = RecvEv.reset :: s2 ∧ (recvCall stream buffer).2.2 = s2) ∨
         (∃ s2, rest = RecvEv.chunk [] :: s2 ∧ (recvCall stream buffer).2.2 = s2))))) :=
  ⟨fun h => recvCall_buffered h,
   fun h => ⟨recvCall_eos_nil h, fun _ => recvCall_eos_reset h,
     fun _ => recvCall_eos_closed h⟩,
   recvCall_cases stream buffer⟩

/-- C9 witness: with the bytes of "HI\nJ" buffered across two reads, the call
returns the decoded record HI, keeps the J, and leaves the stream rest; a
reset with a partial record pending yields end-of-stream. -/
theorem c9_receiver_spec_witness :
    recvCall [] [72, 73, 10, 74] = (RecvRes.msg "HI", [74], []) ∧
    recvCall [RecvEv.reset] [72] = (RecvRes.eos, [72], []) := by
  constructor
  · have h := (c9_receiver_spec [] [72, 73, 10, 74]).1 (by decide)
    rw [h]
    decide
  · have h := ((c9_receiver_spec [RecvEv.reset] [72]).2.1 (by decide)).2.1 []
    rw [h]
